import Mathlib

/-!
Verification development for the curtiles repository (src/curtiles/__init__.py,
src/colors.py, src/demo.py).  The Python classes CTiles.Grid, CTiles.Stylist,
CTiles.Tile and the CTiles engine loop are shallowly embedded as executable
Lean definitions; machine integers are Nat/Int (Python integers are unbounded,
so no wrap-around modelling is needed); fallible code returns Except or an
explicit success flag.  The curses terminal is external to the repository and
is modelled as a write log (Screen) whose addnstr either records in-window
writes or fails like curses does for an out-of-window start position.
-/

/-- Python regular-expression whitespace class (ASCII part): space, tab,
newline, carriage return, vertical tab, form feed.  The tiles render ASCII
content, so the Unicode extension of the class is not modelled. -/
def pyWs (c : Char) : Bool :=
  c == ' ' || c == '\t' || c == '\n' || c == '\r' || c == '\x0b' || c == '\x0c'

/-- Embedding of the effect of Python re.sub applied with the single-character
whitespace class and a one-space replacement, as used at line 602 of
src/curtiles/__init__.py: each whitespace character is replaced by one
space. -/
def normWsL : List Char → List Char
  | [] => []
  | c :: rest => (if pyWs c then ' ' else c) :: normWsL rest

/-- String form of normWsL. -/
def normWs (s : String) : String := String.mk (normWsL s.data)

/-- Helper for collapseRuns, carrying whether the previous character was
whitespace. -/
def collapseRunsGo : Bool → List Char → List Char
  | _, [] => []
  | prevWs, c :: rest =>
    if pyWs c then
      if prevWs then collapseRunsGo true rest
      else ' ' :: collapseRunsGo true rest
    else c :: collapseRunsGo false rest

/-- Modelled from the spec: the renderer of the spec normalizes every run of
consecutive whitespace characters in a content line to a single space.  This
definition follows the spec words and exists only to be compared with the
source embedding normWsL. -/
def collapseRuns (l : List Char) : List Char := collapseRunsGo false l

/-- String form of collapseRuns. -/
def collapseRunsS (s : String) : String := String.mk (collapseRuns s.data)

/-- Embedding of Python str.strip(): leading and trailing whitespace
removed. -/
def pyStrip (l : List Char) : List Char :=
  ((l.dropWhile pyWs).reverse.dropWhile pyWs).reverse

/-- Embedding of Python range(a, b) over integers. -/
def intRange (a b : Int) : List Int :=
  (List.range (b - a).toNat).map (fun i => a + (i : Int))

/-- Embedding of the Python slice s[0:n] for possibly negative n: a
non-negative bound keeps the first n characters, a negative bound drops the
last ones. -/
def pySlice (l : List Char) (n : Int) : List Char :=
  if 0 ≤ n then l.take n.toNat else l.take (l.length - n.natAbs)

/-- Embedding of a Python dict assignment d[k] = v on an association list: an
existing key is overwritten in place, a new key is appended (insertion
order preserved, as Python dicts do). -/
def dictSet {α : Type} : List (String × α) → String → α → List (String × α)
  | [], k, v => [(k, v)]
  | (k0, v0) :: rest, k, v =>
    if k0 = k then (k0, v) :: rest else (k0, v0) :: dictSet rest k v

/-- Embedding of a Python dict lookup d.get(k). -/
def dictGet {α : Type} : List (String × α) → String → Option α
  | [], _ => none
  | (k0, v0) :: rest, k => if k0 = k then some v0 else dictGet rest k

/-- A compiled regular expression is external (Python re); only its search
method on a line is observable, so a pattern is embedded as a Boolean
predicate on strings. -/
abbrev Pattern := String → Bool

/-- Embedding of an action effect record: a dict that may carry the keys
background, halt and exit (src/curtiles/__init__.py, valid_action_ and the
engine loop).  Option encodes key presence; the engine tests presence only,
never the stored Boolean. -/
structure Effect where
  background : Option Nat := none
  halt : Option Bool := none
  exit : Option Bool := none
deriving DecidableEq

/-- Embedding of the CTiles.Tile state (src/curtiles/__init__.py lines
416-523).  The capacity-1 freshness Queue is embedded as an Option holding
the pending payload; styles is split into its border flag, the optional
title and body handles, and the ordered regex-keyed entries; geometry is the
four fields height, width, ypos, xpos. -/
structure Tile where
  lines : List String
  queue : Option (List String)
  title : Option String
  toggle_key : Option Char
  height : Nat
  width : Nat
  ypos : Nat
  xpos : Nat
  border : Bool
  styleTitle : Option Nat
  styleBody : Option Nat
  stylePatterns : List (Pattern × Nat)
  action : List (Pattern × Effect)
  memory : Option (List String)
  loaded : Bool

instance : Inhabited Tile :=
  ⟨{ lines := [], queue := none, title := none, toggle_key := none,
     height := 0, width := 0, ypos := 0, xpos := 0, border := false,
     styleTitle := none, styleBody := none, stylePatterns := [], action := [],
     memory := none, loaded := false }⟩

/-- Tile.visible property: a Tile is visible exactly when no hidden memory is
stashed (src/curtiles/__init__.py line 463). -/
def Tile.visible (t : Tile) : Bool := t.memory.isNone

/-- Tile.position: sets the geometry to the given coordinates
(src/curtiles/__init__.py line 468; the equality pretest has no observable
effect). -/
def Tile.position (t : Tile) (y x : Nat) : Tile := { t with ypos := y, xpos := x }

/-- Embedding of the CTiles.Grid occupancy map (src/curtiles/__init__.py
lines 34-110).  data keeps the full terminal dimensions; height and width
are reduced by two when a surrounding border is drawn, exactly as the
constructor does. -/
structure Grid where
  data : List (List Nat)
  has_border : Bool
  height : Nat
  width : Nat

/-- Grid constructor (src/curtiles/__init__.py lines 39-46).  Python would
produce a negative height or width for tiny bordered terminals; both are
used only as range bounds, where Nat truncation and Python range of a
negative agree (an empty range). -/
def Grid.init (height width : Nat) (border : Bool) : Grid :=
  { data := List.replicate height (List.replicate width 0)
  , has_border := border
  , height := if border then height - 2 else height
  , width := if border then width - 2 else width }

/-- Helper for Grid.inquire: the loop body over the row offsets of the slab,
threading the running loss (src/curtiles/__init__.py lines 66-80).  The
column start index is a Nat, so the Python clamp max(c_index, 0) is the
identity. -/
def Grid.inquireGo (g : Grid) (slabW ypos xpos : Nat) : List Nat → Int → Option Int
  | [], loss => some loss
  | row :: rest, loss =>
    let r := row + ypos
    if g.data.length ≤ r then
      Grid.inquireGo g slabW ypos xpos rest (loss + (slabW : Int))
    else
      let rowData := g.data.getD r []
      if 0 < ((rowData.drop xpos).take slabW).sum then none
      else
        Grid.inquireGo g slabW ypos xpos rest
          (loss + ((slabW : Int) - ((rowData.drop xpos).length : Int)))

/-- Grid.inquire (src/curtiles/__init__.py lines 61-80): tests whether a slab
fits with its top-left corner at the given position, returning none on any
collision with an occupied on-grid cell and a loss score otherwise. -/
def Grid.inquire (g : Grid) (ypos xpos : Nat) (slab : Tile) : Option Int :=
  Grid.inquireGo g slab.width ypos xpos (List.range slab.height) 0

/-- One row collides when it lies on the grid and the slice of width cells
starting at xpos contains an occupied cell. -/
def Grid.rowCollides (g : Grid) (xpos slabW r : Nat) : Bool :=
  decide (r < g.data.length) &&
    decide (0 < (((g.data.getD r []).drop xpos).take slabW).sum)

/-- The loss contributed by one row: the full slab width for a row below the
bottom edge, otherwise the slab width minus the number of grid columns from
xpos to the right edge (an integer, negative when the slab ends short of the
right edge). -/
def Grid.rowLoss (g : Grid) (xpos slabW r : Nat) : Int :=
  if g.data.length ≤ r then (slabW : Int)
  else (slabW : Int) - (((g.data.getD r []).drop xpos).length : Int)

/-- Closed-form companion of Grid.inquire, phrased as the amended claim:
none exactly when some on-grid cell of the footprint is occupied, otherwise
the sum of the per-row losses. -/
def Grid.inquireSpec (g : Grid) (ypos xpos : Nat) (slab : Tile) : Option Int :=
  if (List.range slab.height).any (fun row => g.rowCollides xpos slab.width (row + ypos))
  then none
  else some (((List.range slab.height).map
      (fun row => g.rowLoss xpos slab.width (row + ypos))).sum)

/-- A candidate position returned by the grid search, with its loss score. -/
structure Pos where
  ypos : Nat
  xpos : Nat
  loss : Int
deriving DecidableEq

/-- Helper for Grid.search: the inner column scan of one row
(src/curtiles/__init__.py lines 89-96).  The scan stops right after
collecting a zero-loss candidate, like the Python break. -/
def Grid.searchCols (g : Grid) (slab : Tile) (row off : Nat) : List Nat → List Pos
  | [] => []
  | col :: rest =>
    match g.inquire row col slab with
    | none => Grid.searchCols g slab row off rest
    | some loss =>
      let p : Pos := { ypos := row + off, xpos := col + off, loss := loss }
      if loss = 0 then [p] else p :: Grid.searchCols g slab row off rest

/-- Helper for Grid.search: the outer row scan threading the accumulated
candidate list; after each row the Python code breaks when the last
collected candidate has zero loss (src/curtiles/__init__.py lines 88-98). -/
def Grid.searchRowsGo (g : Grid) (slab : Tile) (off : Nat) (acc : List Pos) :
    List Nat → List Pos
  | [] => acc
  | row :: rest =>
    let acc' := acc ++ Grid.searchCols g slab row off (List.range g.width)
    match acc'.getLast? with
    | some p => if p.loss = 0 then acc' else Grid.searchRowsGo g slab off acc' rest
    | none => Grid.searchRowsGo g slab off acc' rest

/-- The candidate list collected by one run of Grid.search, in scan order. -/
def Grid.candidates (g : Grid) (slab : Tile) : List Pos :=
  Grid.searchRowsGo g slab (if g.has_border then 1 else 0) [] (List.range g.height)

/-- Grid.search (src/curtiles/__init__.py lines 82-101).  The Python tail
sorts the collected candidates by loss with a stable sort and takes the
head, which is the first candidate in scan order attaining the minimal
loss: List.argmin returns exactly that element (and none for an empty
list, matching the Python return of None). -/
def Grid.search (g : Grid) (slab : Tile) : Option Pos :=
  (Grid.candidates g slab).argmin Pos.loss

/-- One cell of Grid.reserve (src/curtiles/__init__.py lines 105-110): cells
outside the stored matrix are skipped, an occupied in-bounds cell raises,
a free in-bounds cell is marked. -/
def Grid.reserveCell (g : Grid) (rc : Nat × Nat) : Except String Grid :=
  let row := g.data.getD rc.1 []
  if rc.1 < g.data.length ∧ rc.2 < row.length then
    if 0 < row.getD rc.2 0 then Except.error "already reserved"
    else Except.ok { g with data := g.data.set rc.1 (row.set rc.2 1) }
  else Except.ok g

/-- The footprint of a tile as the row-major list of cell coordinates that
Grid.reserve walks (src/curtiles/__init__.py lines 105-106). -/
def Tile.cells (t : Tile) : List (Nat × Nat) :=
  (List.range t.height).flatMap
    (fun dr => (List.range t.width).map (fun dc => (t.ypos + dr, t.xpos + dc)))

/-- Grid.reserve (src/curtiles/__init__.py lines 103-110): marks every
in-bounds cell of the committed footprint, failing like the Python
AssertionError on a cell that is already occupied. -/
def Grid.reserve (g : Grid) (slab : Tile) : Except String Grid :=
  slab.cells.foldlM Grid.reserveCell g

/-- The occupancy value of a cell, zero outside the stored matrix. -/
def Grid.cellAt (g : Grid) (r c : Nat) : Nat := (g.data.getD r []).getD c 0

/-- A coordinate pair lies inside the stored occupancy matrix. -/
def Grid.InBounds (g : Grid) (rc : Nat × Nat) : Prop :=
  rc.1 < g.data.length ∧ rc.2 < (g.data.getD rc.1 []).length

instance (g : Grid) (rc : Nat × Nat) : Decidable (Grid.InBounds g rc) := by
  unfold Grid.InBounds; infer_instance

/-- The grid data is a rows-by-cols matrix. -/
def Grid.Shaped (g : Grid) (rows cols : Nat) : Prop :=
  g.data.length = rows ∧ ∀ r, r < rows → (g.data.getD r []).length = cols

/-- Two tiles are disjoint on the grid cells of a rows-by-cols terminal when
no in-bounds coordinate belongs to both footprints. -/
def TileDisj (rows cols : Nat) (t1 t2 : Tile) : Prop :=
  ∀ rc : Nat × Nat, rc.1 < rows → rc.2 < cols →
    rc ∈ t1.cells → rc ∈ t2.cells → False

/-- The terminal surface, external to the repository, embedded as a window of
fixed size plus a log of the cell coordinates written (with the character
placed there) and the current background handle set by bkgd. -/
structure Screen where
  rows : Nat
  cols : Nat
  writes : List (Int × Int × Char)
  bg : Option Nat := none

/-- Embedding of curses addnstr(y, x, s, n): an out-of-window start position
raises (the Boolean result is false and nothing is written, matching the
curses error that the tile code catches); otherwise at most n characters
are painted from (y, x).  curses keeps every painted cell inside the
window (text reaching the right margin wraps within it); only the window
bound matters here, so the overflow is logged as clipped at the right
edge.  A negative n paints the whole string, as ncurses waddnstr does. -/
def Screen.addnstrE (scr : Screen) (y x : Int) (s : List Char) (n : Int) :
    Screen × Bool :=
  if y < 0 ∨ (scr.rows : Int) ≤ y ∨ x < 0 ∨ (scr.cols : Int) ≤ x then (scr, false)
  else
    let k : Nat := if n < 0 then s.length else min n.toNat s.length
    let cells := (List.range k).filterMap (fun (i : Nat) =>
      if x + (i : Int) < (scr.cols : Int) then some (y, x + (i : Int), s.getD i ' ')
      else none)
    ({ scr with writes := scr.writes ++ cells }, true)

/-- A sequence of addnstr calls at a fixed column, stopping at the first
failing call: the body of the two try blocks of Tile.draw_background
(src/curtiles/__init__.py lines 535-565). -/
def drawLinesSeq (scr : Screen) (x : Int) (n : Int) :
    List (Int × List Char) → Screen × Bool
  | [] => (scr, true)
  | (y, line) :: rest =>
    let step := scr.addnstrE y x line n
    if step.2 then drawLinesSeq step.1 x n rest else (step.1, false)

/-- The single-line box drawing characters used by the tile border
(CTiles.Stylist.border_char_for, single mode). -/
def singleTL : Char := Char.ofNat 0x256D
/-- Top-right corner of the single-line box set. -/
def singleTR : Char := Char.ofNat 0x256E
/-- Bottom-right corner of the single-line box set. -/
def singleBR : Char := Char.ofNat 0x256F
/-- Bottom-left corner of the single-line box set. -/
def singleBL : Char := Char.ofNat 0x2570
/-- Horizontal bar of the single-line box set. -/
def singleHorz : Char := Char.ofNat 0x2500
/-- Vertical bar of the single-line box set. -/
def singleVert : Char := Char.ofNat 0x2502
/-- Left tee of the single-line box set. -/
def singleLTee : Char := Char.ofNat 0x251C
/-- Right tee of the single-line box set. -/
def singleRTee : Char := Char.ofNat 0x2524

/-- Tile.draw_background (src/curtiles/__init__.py lines 525-566): paints the
border frame or blanks the footprint; any curses error aborts the painting
and reports failure, exactly like the Python try blocks returning False.
The min_x parameter of the Python signature is unused by its body. -/
def Tile.draw_background (t : Tile) (scr : Screen)
    (minY maxY _minX maxXLen : Int) : Screen × Bool :=
  if t.border then
    let horz := List.replicate (maxXLen - 2).toNat singleHorz
    let blank := List.replicate (maxXLen - 2).toNat ' '
    let firstLine := singleTL :: horz ++ [singleTR]
    let titleLine := singleLTee :: horz ++ [singleRTee]
    let middleLine := singleVert :: blank ++ [singleVert]
    let lastLine := singleBL :: horz ++ [singleBR]
    let step1 := scr.addnstrE minY (t.xpos : Int) firstLine maxXLen
    if step1.2 then
      let middles := (intRange (minY + 1) maxY).enum.map
        (fun iy => (iy.2, if iy.1 = 1 then titleLine else middleLine))
      let step2 := drawLinesSeq step1.1 (t.xpos : Int) maxXLen middles
      if step2.2 then step2.1.addnstrE maxY (t.xpos : Int) lastLine maxXLen
      else (step2.1, false)
    else (step1.1, false)
  else
    let blankLine := List.replicate maxXLen.toNat ' '
    drawLinesSeq scr (t.xpos : Int) maxXLen
      ((intRange minY (maxY + 1)).map (fun y => (y, blankLine)))

/-- Embedding of the Python list indexing ls[i] used under the guard
i < len(ls), where a negative i counts from the end. -/
def pyGetLine (ls : List String) (i : Int) : String :=
  if 0 ≤ i then ls.getD i.toNat "" else ls.getD (ls.length - i.natAbs) ""

/-- Tile.markup_for (src/curtiles/__init__.py lines 474-490): the style for a
given line of text, trying whitespace-only, then the title row, then the
regex-keyed styles in table order, then the body style, then no style. -/
def Tile.markup_for (t : Tile) (lineI : Int) (text : String) : Nat :=
  if (pyStrip text.data).length = 0 then 0
  else if lineI = 0 ∧ t.title.isSome ∧ t.styleTitle.isSome then t.styleTitle.getD 0
  else
    match t.stylePatterns.find? (fun pk => pk.1 text) with
    | some pk => pk.2
    | none =>
      match t.styleBody with
      | some b => b
      | none => 0

/-- The content loop of Tile.update (src/curtiles/__init__.py lines 595-620):
walks the visible rows with their enumeration index, skipping the border
title row (decrementing the line offset as the Python continue does), and
paints each padded, possibly toggle-key-annotated, clipped line; a curses
error on one row is swallowed and the loop continues (the per-row try). -/
def Tile.updateLines (t : Tile) (scr : Screen) (minX maxXLen : Int) :
    List (Nat × Int) → Int → Screen
  | [], _ => scr
  | (idx, y) :: rest, offset =>
    if idx = 1 ∧ t.title.isSome ∧ t.border then
      Tile.updateLines t scr minX maxXLen rest (offset - 1)
    else
      let effIdx : Int := (idx : Int) + offset
      let base : List Char :=
        if effIdx < (t.lines.length : Int) then normWsL (pyGetLine t.lines effIdx).data
        else ['.']
      let line1 := base ++ List.replicate ((maxXLen - (base.length : Int)).toNat) ' '
      let line2 :=
        if effIdx = 0 ∧ t.memory.isNone ∧ t.title.isSome ∧ t.toggle_key.isSome ∧
            3 + (t.title.getD "").length ≤ line1.length then
          line1.take (line1.length - 3) ++ ['[', t.toggle_key.getD ' ', ']']
        else line1
      let _style := t.markup_for effIdx (String.mk line2)
      let s1 := (scr.addnstrE y minX (pySlice line2 maxXLen) maxXLen).1
      Tile.updateLines t s1 minX maxXLen rest offset

/-- Tile.update (src/curtiles/__init__.py lines 568-620): clips the footprint
against the current terminal bounds (three rows at the bottom for the
status bar and one column at the right), paints the background, applies
the border inset, and renders the content rows. -/
def Tile.update (t : Tile) (scr : Screen) : Screen :=
  let absMaxY : Int := (scr.rows : Int) - 3
  let absMaxX : Int := (scr.cols : Int) - 1
  let minY0 : Int := (t.ypos : Int)
  let minX0 : Int := (t.xpos : Int)
  let maxY0 : Int := min ((t.ypos : Int) + (t.height : Int) - 1) absMaxY
  let maxXLen0 : Int := min (t.width : Int) (absMaxX - (t.xpos : Int))
  let bgStep := t.draw_background scr minY0 maxY0 minX0 maxXLen0
  if !bgStep.2 then bgStep.1
  else
    let minY := if t.border then minY0 + 1 else minY0
    let minX := if t.border then minX0 + 1 else minX0
    let maxY := if t.border then maxY0 - 1 else maxY0
    let maxXLen := if t.border then maxXLen0 - 2 else maxXLen0
    if maxXLen = 0 then bgStep.1
    else if maxY < minY then bgStep.1
    else
      Tile.updateLines t bgStep.1 minX maxXLen
        ((intRange minY (maxY + 1)).enum.map (fun iy => (iy.1, iy.2))) 0

/-- Tile.load (src/curtiles/__init__.py lines 492-511): a hidden tile or an
empty queue is a no-op returning no effect; a drained payload marks the
tile loaded, replaces the line buffer with the optional title followed by
the payload when the payload is non-empty, and returns the effect of the
first action pattern that matches some current line. -/
def Tile.load (t : Tile) : Option Effect × Tile :=
  if t.memory.isSome then (none, t)
  else
    match t.queue with
    | none => (none, t)
    | some payload =>
      let t1 : Tile := { t with queue := none, loaded := true }
      let t2 : Tile :=
        if 0 < payload.length then
          { t1 with lines := (match t.title with
              | some x => [x]
              | none => []) ++ payload }
        else t1
      match t2.action.find? (fun pe => t2.lines.any (fun l => pe.1 l)) with
      | some pe => (some pe.2, t2)
      | none => (none, t2)

/-- Closed-form companion of Tile.load, phrased as the amended claim: load is
a no-op returning no effect while the tile is hidden or its queue is
empty; a non-empty payload replaces the line buffer with the optional
title followed by the payload lines while an empty payload leaves the
buffer unchanged; in both cases the tile becomes loaded, the queue is
drained, and the first action pattern matching some resulting line
supplies the returned effect. -/
def Tile.loadSpec (t : Tile) : Option Effect × Tile :=
  if t.memory.isSome ∨ t.queue.isNone then (none, t)
  else
    let payload := t.queue.getD []
    let newLines :=
      if payload ≠ [] then (t.title.elim [] (fun x => [x])) ++ payload else t.lines
    let t' : Tile := { t with lines := newLines, queue := none, loaded := true }
    ((t.action.find? (fun pe => newLines.any (fun l => pe.1 l))).map Prod.snd, t')

/-- Tile.toggle (src/curtiles/__init__.py lines 513-523): only acts once the
tile has loaded at least one payload; going hidden stashes the lines and
blanks the footprint, going visible restores them and immediately drains
the queue; either way the tile repaints itself. -/
def Tile.toggle (t : Tile) (scr : Screen) : Tile × Screen :=
  if t.loaded then
    let t' :=
      match t.memory with
      | none => { t with memory := some t.lines, lines := List.replicate t.height " " }
      | some m => (Tile.load { t with lines := m, memory := none }).2
    (t', t'.update scr)
  else (t, scr)

/-- Every logged write of the screen lies inside the window. -/
def Screen.WB (scr : Screen) : Prop :=
  ∀ w ∈ scr.writes,
    0 ≤ w.1 ∧ w.1 < (scr.rows : Int) ∧ 0 ≤ w.2.1 ∧ w.2.1 < (scr.cols : Int)

instance (scr : Screen) : Decidable (Screen.WB scr) := by
  unfold Screen.WB; infer_instance

/-- The curses color table of CTiles.Stylist (xlate_color_for): the eight
base colors.  init_extended_colors additionally registers the named RGB
palette with the terminal best-effort; those entries only extend this
lookup table with further distinct numbers and are irrelevant to the
pair-handle bookkeeping studied here. -/
def xlateColorFor : List (String × Nat) :=
  [("BLACK", 0), ("RED", 1), ("GREEN", 2), ("YELLOW", 3),
   ("BLUE", 4), ("MAGENTA", 5), ("CYAN", 6), ("WHITE", 7)]

/-- The curses attribute table of CTiles.Stylist (xlate_attr_for) with the
ncurses attribute bit values: every attribute is either zero or a single
bit at position sixteen or above. -/
def xlateAttrFor : List (String × Nat) :=
  [("NORMAL", 0), ("STANDOUT", 65536), ("UNDERLINE", 131072),
   ("REVERSE", 262144), ("BLINK", 524288), ("DIM", 1048576),
   ("BOLD", 2097152), ("ALTCHARSET", 4194304), ("INVIS", 8388608),
   ("PROTECT", 16777216), ("HORIZONTAL", 33554432), ("LEFT", 67108864),
   ("LOW", 134217728), ("RIGHT", 268435456), ("TOP", 536870912),
   ("VERTICAL", 1073741824)]

/-- Embedding of curses.color_pair(n): the pair number placed in bits eight
to fifteen of the attribute word (ncurses NCURSES_BITS(n, 0)). -/
def colorPair (n : Nat) : Nat := n <<< 8

/-- A value of a tile style configuration entry: either a token list to be
translated into a color pair, or a raw value such as the border flag. -/
inductive StyleConf where
  | tokens (ts : List String)
  | raw (b : Bool)

/-- A value of the built style table: a registered terminal handle or a raw
value copied through. -/
inductive StyleVal where
  | handle (h : Nat)
  | raw (b : Bool)
deriving DecidableEq

/-- The CTiles.Stylist state: the style database built at construction and
the process-wide monotonically increasing color-pair index. -/
structure Stylist where
  database : List (String × StyleVal)
  index : Nat

/-- Stylist.translate (src/curtiles/__init__.py lines 343-355): maps up to
two color tokens and one attribute token to their curses values, with
unrecognized tokens degrading to zero. -/
def Stylist.translate (ts : List String) : (Nat × Nat) × Nat :=
  let c0 := if 0 < ts.length then (xlateColorFor.lookup (ts.getD 0 "")).getD 0 else 0
  let c1 := if 1 < ts.length then (xlateColorFor.lookup (ts.getD 1 "")).getD 0 else 0
  let attr := if 2 < ts.length then (xlateAttrFor.lookup (ts.getD 2 "")).getD 0 else 0
  ((c0, c1), attr)

/-- Stylist.merge (src/curtiles/__init__.py lines 315-328): copies the
database, then for each token-list entry registers a new color pair at
the current index (curses.init_pair is the external registration side
effect), stores color_pair(index) combined with the attribute, and
increments the index; non-list entries are copied through.  The stylist
database itself is not modified, only the index advances. -/
def Stylist.merge (s : Stylist) (conf : List (String × StyleConf)) :
    List (String × StyleVal) × Stylist :=
  conf.foldl
    (fun acc kv =>
      match kv.2 with
      | StyleConf.tokens ts =>
        let ca := Stylist.translate ts
        (dictSet acc.1 kv.1 (StyleVal.handle (colorPair acc.2.index ||| ca.2)),
         { acc.2 with index := acc.2.index + 1 })
      | StyleConf.raw b => (dictSet acc.1 kv.1 (StyleVal.raw b), acc.2))
    (s.database, s)

/-- The double-line box characters used by the engine background
(CTiles.Stylist.border_char_for, double mode): top-left corner. -/
def doubleTL : Char := Char.ofNat 0x2554
/-- Top-right corner of the double-line box set. -/
def doubleTR : Char := Char.ofNat 0x2557
/-- Bottom-right corner of the double-line box set. -/
def doubleBR : Char := Char.ofNat 0x255D
/-- Bottom-left corner of the double-line box set. -/
def doubleBL : Char := Char.ofNat 0x255A
/-- Horizontal bar of the double-line box set. -/
def doubleHorz : Char := Char.ofNat 0x2550
/-- Vertical bar of the double-line box set. -/
def doubleVert : Char := Char.ofNat 0x2551

/-- An addnstr call whose curses error is not caught: the engine level
draw_background has no try block, so a failure aborts the frame. -/
def addnstrX (scr : Screen) (y x : Int) (s : List Char) (n : Int) :
    Except String Screen :=
  let step := scr.addnstrE y x s n
  if step.2 then Except.ok step.1 else Except.error "curses error"

/-- CTiles.draw_background (src/curtiles/__init__.py lines 809-825): paints
the whole-terminal background frame, double-bordered or blank. -/
def engineBackground (border : Bool) (scr : Screen) : Except String Screen :=
  let height : Int := (scr.rows : Int)
  let width := scr.cols
  if border then do
    let firstLine := doubleTL :: List.replicate (width - 2) doubleHorz ++ [doubleTR]
    let middleLine := doubleVert :: List.replicate (width - 2) ' ' ++ [doubleVert]
    let lastLine := doubleBL :: List.replicate (width - 2) doubleHorz ++ [doubleBR]
    let s1 ← addnstrX scr 0 0 firstLine (firstLine.length : Int)
    let s2 ← (intRange 1 (height - 2)).foldlM
      (fun sc y => addnstrX sc y 0 middleLine (width : Int)) s1
    let s3 ← addnstrX s2 (height - 2) 0 lastLine (lastLine.length : Int)
    addnstrX s3 (height - 1) 0 (List.replicate (width - 1) ' ') ((width : Int) - 1)
  else do
    let blankLine := List.replicate width ' '
    let s1 ← (intRange 0 (height - 1)).foldlM
      (fun sc y => addnstrX sc y 0 blankLine (width : Int)) scr
    addnstrX s1 (height - 1) 0 blankLine ((width : Int) - 1)

/-- The outcome of one CTiles.arrange pass: the updated slabs, the final
grid and screen, the successfully reserved tiles, and whether the pass
completed without the reserve assertion firing (a false flag is the Python
AssertionError propagating out of arrange). -/
structure ArrangeResult where
  slabs : List Tile
  grid : Grid
  scr : Screen
  placed : List Tile
  ok : Bool

/-- The loop of CTiles.arrange (src/curtiles/__init__.py lines 834-841):
each visible slab is toggled hidden, a position is searched; on success
the slab is positioned, toggled back visible and its footprint reserved;
on failure it is skipped (left toggled).  A reserve assertion aborts the
pass. -/
def arrangeGo (grid : Grid) (scr : Screen) : List Tile → ArrangeResult
  | [] => { slabs := [], grid := grid, scr := scr, placed := [], ok := true }
  | slab :: rest =>
    if slab.visible then
      let st1 := slab.toggle scr
      match grid.search st1.1 with
      | none =>
        let res := arrangeGo grid st1.2 rest
        { res with slabs := st1.1 :: res.slabs }
      | some loc =>
        let s2 := st1.1.position loc.ypos loc.xpos
        let st3 := s2.toggle st1.2
        match grid.reserve st3.1 with
        | Except.error _ =>
          { slabs := st3.1 :: rest, grid := grid, scr := st3.2, placed := [], ok := false }
        | Except.ok grid' =>
          let res := arrangeGo grid' st3.2 rest
          { res with slabs := st3.1 :: res.slabs, placed := st3.1 :: res.placed }
    else
      let res := arrangeGo grid scr rest
      { res with slabs := slab :: res.slabs }

/-- CTiles.arrange (src/curtiles/__init__.py lines 828-841): builds a fresh
grid for the terminal size and places the visible tiles. -/
def engineArrange (rows cols : Nat) (border : Bool) (slabs : List Tile)
    (scr : Screen) : ArrangeResult :=
  arrangeGo (Grid.init rows cols border) scr slabs

/-- The CTiles engine state carried across frames of the main loop: the
tiles, the paused flag, the presence of a background entry in the stylist
database, the global border flag, the last seen terminal size, and the
toggle-key table. -/
structure Engine where
  slabs : List Tile
  paused : Bool
  databaseBackground : Option Nat
  styleBorder : Bool
  currentHeight : Nat
  currentWidth : Nat
  togglers : List (Int × Nat)

/-- CTiles.Command.QUIT (the letter Q). -/
def commandQUIT : Int := 81

/-- CTiles.Command.TOGGLE_HALT (the space bar). -/
def commandTOGGLE_HALT : Int := 32

/-- The drain loop of the engine frame (src/curtiles/__init__.py lines
888-897): loads each slab in turn; a returned effect applies its
background immediately, sets paused when a halt key is present, and on an
exit key breaks out of the drain loop, leaving the remaining slabs
undrained this frame.  The final Boolean reports whether the break
fired. -/
def engineDrain : List Tile → Bool → Screen → List Tile × Bool × Screen × Bool
  | [], paused, scr => ([], paused, scr, false)
  | slab :: rest, paused, scr =>
    let la := slab.load
    match la.1 with
    | none =>
      let r := engineDrain rest paused scr
      (la.2 :: r.1, r.2)
    | some eff =>
      let scr1 :=
        match eff.background with
        | some h => { scr with bg := some h }
        | none => scr
      let paused1 := if eff.halt.isSome then true else paused
      if eff.exit.isSome then (la.2 :: rest, paused1, scr1, true)
      else
        let r := engineDrain rest paused1 scr1
        (la.2 :: r.1, r.2)

/-- CTiles.screen_size_changed (src/curtiles/__init__.py lines 630-638). -/
def screenSizeChanged (e : Engine) (scr : Screen) : Bool × Engine :=
  if e.currentHeight ≠ scr.rows ∨ e.currentWidth ≠ scr.cols then
    (true, { e with currentHeight := scr.rows, currentWidth := scr.cols })
  else (false, e)

/-- terminal.bkgd(stylist.database[...]) as used unconditionally at lines
903, 913 and 924: a missing background entry is the Python KeyError. -/
def engineSetBkgd (e : Engine) (scr : Screen) : Except String Screen :=
  match e.databaseBackground with
  | some h => Except.ok { scr with bg := some h }
  | none => Except.error "KeyError: background"

/-- One iteration of the engine main loop (src/curtiles/__init__.py lines
887-924).  The input key is the getch result, none standing for the
non-blocking -1.  The returned Boolean tells whether this iteration left
the while loop (only the QUIT key does); an error is an uncaught Python
exception aborting the loop abnormally. -/
def engineFrame (e : Engine) (scr : Screen) (key : Option Int) :
    Except String (Engine × Screen × Bool) := do
  let step1 : Engine × Screen ←
    if e.paused then pure (e, scr)
    else do
      let dr := engineDrain e.slabs e.paused scr
      let slabs1 := dr.1
      let paused1 := dr.2.1
      let scrD := dr.2.2.1
      let scrR := slabs1.foldl (fun sc sl => sl.update sc) scrD
      let e1 : Engine := { e with slabs := slabs1, paused := paused1 }
      let ch := screenSizeChanged e1 scr
      if ch.1 then do
        let scrB ← engineBackground ch.2.styleBorder scrR
        let ar := engineArrange scr.rows scr.cols ch.2.styleBorder ch.2.slabs scrB
        if ar.ok then do
          let scrK ← engineSetBkgd ch.2 ar.scr
          pure ({ ch.2 with slabs := ar.slabs }, scrK)
        else Except.error "already reserved"
      else pure (ch.2, scrR)
  let e' := step1.1
  let scr' := step1.2
  match key with
  | none => pure (e', scr', false)
  | some k =>
    if k = commandQUIT then pure (e', scr', true)
    else if k = commandTOGGLE_HALT then
      if e'.paused then do
        let scrK ← engineSetBkgd e' scr'
        pure ({ e' with paused := false }, scrK, false)
      else pure ({ e' with paused := true }, scr', false)
    else if ¬ e'.paused then
      match e'.togglers.lookup k with
      | some ndex =>
        let st := (e'.slabs.getD ndex default).toggle scr'
        let slabs2 := e'.slabs.set ndex st.1
        let scrB ← engineBackground e'.styleBorder st.2
        let ar := engineArrange scr.rows scr.cols e'.styleBorder slabs2 scrB
        if ar.ok then do
          let scrK ← engineSetBkgd e' ar.scr
          pure ({ e' with slabs := ar.slabs }, scrK, false)
        else Except.error "already reserved"
      | none => pure (e', scr', false)
    else pure (e', scr', false)

/-- Projection of a frame outcome onto the exited flag (none for a crashed
frame). -/
def frameExitFlag : Except String (Engine × Screen × Bool) → Option Bool
  | Except.ok r => some r.2.2
  | Except.error _ => none

/-- An effect record carrying only the exit key. -/
def c1exitEffect : Effect := { exit := some true }

/-- A tile whose pending payload triggers an exit action on load. -/
def c1tile : Tile :=
  { (default : Tile) with
    queue := some ["x"], action := [(fun _ => true, c1exitEffect)] }

/-- An engine about to drain c1tile, with the stored terminal size matching
the screen so no re-arrangement path runs. -/
def c1engine : Engine :=
  { slabs := [c1tile], paused := false, databaseBackground := some 7,
    styleBorder := false, currentHeight := 5, currentWidth := 5, togglers := [] }

/-- A five-by-five terminal with an empty write log. -/
def c1screen : Screen := { rows := 5, cols := 5, writes := [], bg := none }

/-- An empty five-row, ten-column grid. -/
def c2grid : Grid := Grid.init 5 10 false

/-- A two-by-three slab at the origin. -/
def c2tile : Tile := { (default : Tile) with height := 2, width := 3 }

/-- An empty one-row, four-column grid. -/
def c4grid : Grid := Grid.init 1 4 false

/-- A one-by-two slab. -/
def c4tile : Tile := { (default : Tile) with height := 1, width := 2 }

/-- The candidate Grid.search actually returns on c4grid with c4tile. -/
def c4pos : Pos := { ypos := 0, xpos := 0, loss := -2 }

/-- A loaded, visible tile with an empty queue. -/
def c5tile : Tile :=
  { (default : Tile) with
    lines := ["abc", "def"], loaded := true, height := 2, width := 3 }

/-- A ten-by-ten terminal with an empty write log. -/
def c5scr : Screen := { rows := 10, cols := 10, writes := [], bg := none }

/-- A visible untitled tile holding the line buffer old with an empty list
pending as its freshest payload. -/
def c6tile : Tile := { (default : Tile) with lines := ["old"], queue := some [] }

/-- A bordered, titled ten-by-ten tile placed so that its footprint exceeds a
five-by-five terminal on both axes. -/
def c7tile : Tile :=
  { (default : Tile) with
    height := 10, width := 10, ypos := 3, xpos := 3,
    lines := ["HELLO WORLD"], title := some "T", border := true,
    toggle_key := some 'k', loaded := true }

/-- A five-by-five terminal with an empty write log. -/
def c7screen : Screen := { rows := 5, cols := 5, writes := [], bg := none }

/-- A fresh stylist, as built from an empty global style. -/
def c8stylist : Stylist := { database := [], index := 1 }

/-- A one-entry style configuration with a fixed color triple. -/
def c8conf : List (String × StyleConf) := [("body", StyleConf.tokens ["RED", "BLACK"])]

/-- A stylist that has already allocated eight pair slots. -/
def c8wstylist : Stylist := { database := [], index := 9 }

/-- An unloaded tile (no payload ever drained). -/
def c10tile : Tile :=
  { (default : Tile) with lines := ["x"], queue := some ["y"], height := 3 }

/-- A four-by-four terminal with an empty write log. -/
def c10scr : Screen := { rows := 4, cols := 4, writes := [], bg := none }

-- ===== THEOREMS =====

/-- C10: for a Tile on which load has never obtained a payload (loaded still
false), toggle is a complete no-op: the tile (lines, hidden memory,
visibility, geometry) and the screen are returned unchanged, so nothing is
drawn. -/
theorem tile_toggle_noop_before_first_load (t : Tile) (scr : Screen)
    (h : t.loaded = false) : t.toggle scr = (t, scr) := by
  simp [Tile.toggle, h]

/-- Witness for C10 at a concrete unloaded tile. -/
theorem tile_toggle_noop_before_first_load_witness :
    c10tile.loaded = false ∧ c10tile.toggle c10scr = (c10tile, c10scr) :=
  ⟨rfl, tile_toggle_noop_before_first_load c10tile c10scr rfl⟩

/-- C5: toggling a visible tile twice (hide, then show) with nothing arriving
in its queue in between restores exactly the line buffer present before
hiding. -/
theorem tile_toggle_twice_restores_lines (t : Tile) (scr1 scr2 : Screen)
    (hv : t.memory = none) (hq : t.queue = none) :
    (((t.toggle scr1).1).toggle scr2).1.lines = t.lines := by
  cases hl : t.loaded
  · simp [Tile.toggle, hl]
  · simp [Tile.toggle, hl, hv, Tile.load, hq]

/-- Witness for C5 at a concrete loaded visible tile. -/
theorem tile_toggle_twice_restores_lines_witness :
    c5tile.memory = none ∧ c5tile.queue = none ∧
      (((c5tile.toggle c5scr).1).toggle c5scr).1.lines = c5tile.lines :=
  ⟨rfl, rfl, tile_toggle_twice_restores_lines c5tile c5scr c5scr rfl rfl⟩

/-- C6 counterexample: a visible tile with the empty list as its pending
payload keeps its old line buffer after load, while the claim as stated
predicts the buffer is replaced by the optional title followed by the
payload lines, which is empty here. -/
theorem tile_load_empty_payload_keeps_lines :
    c6tile.memory = none ∧ c6tile.queue = some [] ∧ c6tile.title = none ∧
    (Tile.load c6tile).2.lines = ["old"] ∧ (Tile.load c6tile).2.lines ≠ [] := by
  exact ⟨rfl, rfl, rfl, rfl, by decide⟩

/-- C6 amended: load is a no-op returning no effect while the tile is hidden
or its queue is empty; a non-empty payload replaces the line buffer with
the optional title followed by the payload lines, while an empty payload
leaves the buffer unchanged; in both cases the tile becomes loaded, the
queue is drained, and the first action pattern matching some current line
supplies the returned effect. -/
theorem tile_load_eq_loadSpec (t : Tile) : t.load = t.loadSpec := by
  cases hm : t.memory with
  | some m => simp [Tile.load, Tile.loadSpec, hm]
  | none =>
    cases hq : t.queue with
    | none => simp [Tile.load, Tile.loadSpec, hm, hq]
    | some payload =>
      cases payload with
      | nil =>
        simp only [Tile.load, Tile.loadSpec, hm, hq]
        simp
        generalize List.find? (fun pe => List.any t.lines fun l => pe.1 l) t.action = F
        cases F <;> rfl
      | cons a as =>
        cases ht : t.title with
        | none =>
          simp only [Tile.load, Tile.loadSpec, hm, hq, ht]
          simp
          generalize List.find? (fun pe => pe.1 a || List.any as fun l => pe.1 l)
            t.action = F
          cases F <;> rfl
        | some x =>
          simp only [Tile.load, Tile.loadSpec, hm, hq, ht]
          simp
          generalize List.find?
            (fun pe => pe.1 x || (pe.1 a || List.any as fun l => pe.1 l)) t.action = F
          cases F <;> rfl

/-- C2 helper: the inquire loop in closed form over any row list. -/
theorem inquireGo_eq_spec (g : Grid) (slabW ypos xpos : Nat) :
    ∀ (rs : List Nat) (loss : Int),
      Grid.inquireGo g slabW ypos xpos rs loss =
        (if rs.any (fun row => g.rowCollides xpos slabW (row + ypos)) then none
         else some (loss +
           (rs.map (fun row => g.rowLoss xpos slabW (row + ypos))).sum)) := by
  intro rs
  induction rs with
  | nil => intro loss; simp [Grid.inquireGo]
  | cons row rest ih =>
    intro loss
    simp only [Grid.inquireGo, List.any_cons, List.map_cons, List.sum_cons]
    by_cases hlen : g.data.length ≤ row + ypos
    · have hc : g.rowCollides xpos slabW (row + ypos) = false := by
        unfold Grid.rowCollides
        have hd : decide (row + ypos < g.data.length) = false := by
          simp only [decide_eq_false_iff_not]; omega
        rw [hd, Bool.false_and]
      have hr : g.rowLoss xpos slabW (row + ypos) = (slabW : Int) := by
        unfold Grid.rowLoss; rw [if_pos hlen]
      rw [if_pos hlen, ih, hc, Bool.false_or, hr]
      by_cases hrest : rest.any (fun r => g.rowCollides xpos slabW (r + ypos))
      · rw [if_pos hrest, if_pos hrest]
      · rw [if_neg hrest, if_neg hrest]
        congr 1
        omega
    · rw [if_neg hlen]
      by_cases hsum : 0 < (((g.data.getD (row + ypos) []).drop xpos).take slabW).sum
      · have hc : g.rowCollides xpos slabW (row + ypos) = true := by
          unfold Grid.rowCollides
          rw [Bool.and_eq_true, decide_eq_true_eq, decide_eq_true_eq]
          exact ⟨by omega, hsum⟩
        rw [if_pos hsum, hc]
        simp
      · have hc : g.rowCollides xpos slabW (row + ypos) = false := by
          unfold Grid.rowCollides
          have hd : decide
              (0 < (((g.data.getD (row + ypos) []).drop xpos).take slabW).sum) = false := by
            simp only [decide_eq_false_iff_not]; exact hsum
          rw [hd, Bool.and_false]
        have hr : g.rowLoss xpos slabW (row + ypos) =
            (slabW : Int) - (((g.data.getD (row + ypos) []).drop xpos).length : Int) := by
          unfold Grid.rowLoss; rw [if_neg hlen]
        rw [if_neg hsum, ih, hc, Bool.false_or, hr]
        by_cases hrest : rest.any (fun r => g.rowCollides xpos slabW (r + ypos))
        · rw [if_pos hrest, if_pos hrest]
        · rw [if_neg hrest, if_neg hrest]
          congr 1
          omega

/-- C2 amended: inquire rejects (none) exactly when some on-grid cell of the
candidate footprint is occupied; otherwise its loss is the sum over the
slab rows of the tile width for a row past the bottom edge and of the tile
width minus the remaining row length from xpos otherwise, an integer that
is negative for rows ending short of the right edge, so a fully on-screen
unoccupied candidate scores zero only when flush with the right edge. -/
theorem grid_inquire_eq_spec (g : Grid) (ypos xpos : Nat) (slab : Tile) :
    g.inquire ypos xpos slab = g.inquireSpec ypos xpos slab := by
  unfold Grid.inquire Grid.inquireSpec
  rw [inquireGo_eq_spec]
  simp

/-- C2 counterexample: on an empty five-by-ten grid, a two-by-three slab at
the origin is fully on-screen with no occupied cell, yet inquire scores it
minus fourteen, not the zero the claim states. -/
theorem grid_inquire_onscreen_not_zero :
    c2tile.height ≤ 5 ∧ c2tile.width ≤ 10 ∧ c2tile.ypos = 0 ∧ c2tile.xpos = 0 ∧
    (∀ rc ∈ c2tile.cells, Grid.cellAt c2grid rc.1 rc.2 = 0) ∧
    Grid.inquire c2grid 0 0 c2tile = some (-14) ∧ (-14 : Int) ≠ 0 := by
  exact ⟨by decide, by decide, rfl, rfl, by decide, by decide, by decide⟩

/-- C9 counterexample: the renderer substitution turns the two-character
whitespace run of a tab pair into two spaces, not the single space the
claim states (the spec-modelled run collapsing gives a different string). -/
theorem normws_does_not_collapse_runs :
    normWs "a\t\tb" = "a  b" ∧ collapseRunsS "a\t\tb" = "a b" ∧
    normWs "a\t\tb" ≠ collapseRunsS "a\t\tb" := by
  exact ⟨rfl, rfl, by decide⟩

/-- Helper for C9: the length of a line is preserved by the whitespace
substitution. -/
theorem normWsL_length : ∀ l : List Char, (normWsL l).length = l.length
  | [] => rfl
  | a :: rest => by simp [normWsL, normWsL_length rest]

/-- Helper for C9: a whitespace character surviving the substitution is the
space character. -/
theorem normWsL_ws_eq_space :
    ∀ (l : List Char) (c : Char), c ∈ normWsL l → pyWs c = true → c = ' '
  | [], c, h, _ => by simp [normWsL] at h
  | a :: rest, c, h, hws => by
    simp only [normWsL, List.mem_cons] at h
    rcases h with h | h
    · by_cases ha : pyWs a
      · rw [h, if_pos ha]
      · rw [h] at hws
        rw [if_neg ha] at hws
        exact absurd hws ha
    · exact normWsL_ws_eq_space rest c h hws

/-- C9 amended: before width accounting, every whitespace character of a
content line is replaced by a single space, preserving the line length, so
whitespace runs keep their length instead of collapsing. -/
theorem normws_replaces_each_char (l : List Char) (c : Char) (h : c ∈ normWsL l) :
    (normWsL l).length = l.length ∧ (pyWs c = true → c = ' ') :=
  ⟨normWsL_length l, fun hws => normWsL_ws_eq_space l c h hws⟩

/-- Witness for C9 amended at a concrete line containing a tab. -/
theorem normws_replaces_each_char_witness :
    (' ' ∈ normWsL ['a', '\t']) ∧
      ((normWsL ['a', '\t']).length = (['a', '\t'] : List Char).length ∧
        (pyWs ' ' = true → ' ' = ' ')) :=
  ⟨by decide, normws_replaces_each_char ['a', '\t'] ' ' (by decide)⟩

/-- C1: evidence for the exit-effect bug.  In a frame where a tile load
returns an effect carrying the exit key and no key is pressed, the main
loop does not terminate: the Python break leaves only the inner drain
loop, so the frame completes and reports not exited, while the claim says
the engine stops iterating. -/
theorem engine_exit_effect_does_not_exit :
    (Tile.load c1tile).1 = some c1exitEffect ∧ c1exitEffect.exit = some true ∧
    frameExitFlag (engineFrame c1engine c1screen none) = some false :=
  ⟨by decide, by decide, by decide⟩

/-- C7 helper: addnstr only ever logs writes inside the window. -/
theorem addnstrE_wb (scr : Screen) (y x : Int) (s : List Char) (n : Int)
    (h : scr.WB) : ((scr.addnstrE y x s n).1).WB := by
  unfold Screen.addnstrE
  split
  · exact h
  · rename_i hok
    push_neg at hok
    obtain ⟨hy0, hyr, hx0, hxc⟩ := hok
    unfold Screen.WB at h ⊢
    intro w hw
    simp only [List.mem_append] at hw
    rcases hw with hw | hw
    · exact h w hw
    · simp only [List.mem_filterMap, List.mem_range] at hw
      obtain ⟨i, _, hi⟩ := hw
      by_cases hic : x + (i : Int) < (scr.cols : Int)
      · rw [if_pos hic] at hi
        cases hi
        dsimp only
        refine ⟨hy0, hyr, by omega, hic⟩
      · rw [if_neg hic] at hi
        cases hi

/-- C7 helper: a sequence of addnstr calls only logs in-window writes. -/
theorem drawLinesSeq_wb :
    ∀ (items : List (Int × List Char)) (scr : Screen) (x n : Int),
      scr.WB → ((drawLinesSeq scr x n items).1).WB
  | [], _, _, _, h => h
  | (y, line) :: rest, scr, x, n, h => by
    unfold drawLinesSeq
    dsimp only
    split
    · exact drawLinesSeq_wb rest _ x n (addnstrE_wb scr y x line n h)
    · exact addnstrE_wb scr y x line n h

/-- C7 helper: the tile background painting only logs in-window writes. -/
theorem tile_draw_background_wb (t : Tile) (scr : Screen) (a b c d : Int)
    (h : scr.WB) : ((t.draw_background scr a b c d).1).WB := by
  unfold Tile.draw_background
  dsimp only
  split
  · split
    · split
      · rename_i hmid
        exact addnstrE_wb _ _ _ _ _ (drawLinesSeq_wb _ _ _ _ (addnstrE_wb _ _ _ _ _ h))
      · exact drawLinesSeq_wb _ _ _ _ (addnstrE_wb _ _ _ _ _ h)
    · exact addnstrE_wb _ _ _ _ _ h
  · exact drawLinesSeq_wb _ _ _ _ h

/-- C7 helper: the tile content loop only logs in-window writes. -/
theorem tile_updateLines_wb :
    ∀ (items : List (Nat × Int)) (t : Tile) (scr : Screen) (minX maxXLen offset : Int),
      scr.WB → (t.updateLines scr minX maxXLen items offset).WB
  | [], _, _, _, _, _, h => h
  | (idx, y) :: rest, t, scr, minX, maxXLen, offset, h => by
    unfold Tile.updateLines
    dsimp only
    split
    · exact tile_updateLines_wb rest t scr minX maxXLen (offset - 1) h
    · exact tile_updateLines_wb rest t _ minX maxXLen offset
        (addnstrE_wb scr y minX _ maxXLen h)

/-- C7: rendering a tile writes no cell outside the terminal window, whatever
the tile geometry and terminal size; a footprint exceeding the bounds is
clipped (possibly to nothing) and every curses error raised under the
render is caught, so the render always completes. -/
theorem tile_update_writes_in_bounds (t : Tile) (scr : Screen) (h : scr.WB) :
    (t.update scr).WB := by
  unfold Tile.update
  dsimp only
  repeat' split
  all_goals
    first
    | exact tile_draw_background_wb t scr _ _ _ _ h
    | exact tile_updateLines_wb _ t _ _ _ _ (tile_draw_background_wb t scr _ _ _ _ h)

/-- Witness for C7: a bordered, titled ten-by-ten tile at position three by
three rendered on a five-by-five terminal. -/
theorem tile_update_writes_in_bounds_witness :
    c7screen.WB ∧ (c7tile.update c7screen).WB :=
  ⟨by decide, tile_update_writes_in_bounds c7tile c7screen (by decide)⟩

/-- C8 helper: a lookup in a table whose values all vanish modulo two to the
sixteen returns such a value. -/
theorem lookup_vals_mod (l : List (String × Nat))
    (hl : ∀ p ∈ l, p.2 % 65536 = 0) (k : String) :
    ((l.lookup k).getD 0) % 65536 = 0 := by
  induction l with
  | nil => simp [List.lookup]
  | cons p rest ih =>
    obtain ⟨a, v⟩ := p
    cases hka : (k == a) with
    | true =>
      simp only [List.lookup, hka, Option.getD_some]
      exact hl (a, v) (by simp)
    | false =>
      simp only [List.lookup, hka]
      exact ih (fun q hq => hl q (by simp [hq]))

/-- C8 helper: every attribute produced by translate vanishes modulo two to
the sixteen (the ncurses attribute bits sit at position sixteen and
above). -/
theorem translate_attr_mod (ts : List String) : (Stylist.translate ts).2 % 65536 = 0 := by
  unfold Stylist.translate
  by_cases h2 : 2 < ts.length
  · simp only [h2, if_true]
    exact lookup_vals_mod xlateAttrFor (by decide) _
  · simp [h2]

/-- C8 helper: the bit of a including the pair field below position sixteen
is absent when a vanishes modulo two to the sixteen. -/
theorem mod_two_pow_sixteen_testBit (a : Nat) (ha : a % 65536 = 0) :
    ∀ j, j < 16 → a.testBit j = false := by
  intro j hj
  have h := Nat.testBit_mod_two_pow a 16 j
  have h65536 : (65536 : Nat) = 2 ^ 16 := by norm_num
  rw [← h65536, ha] at h
  simpa [hj] using h.symm

/-- C8 helper: combining two consecutive pair indices below 256 with the same
attribute yields distinct handles. -/
theorem colorPair_or_attr_ne (i a : Nat) (hi : i + 1 < 256) (ha : a % 65536 = 0) :
    colorPair i ||| a ≠ colorPair (i + 1) ||| a := by
  intro h
  have hib : ∃ k, i.testBit k ≠ (i + 1).testBit k := by
    by_contra hc
    push_neg at hc
    have := Nat.eq_of_testBit_eq hc
    omega
  obtain ⟨k, hk⟩ := hib
  have hk8 : k < 8 := by
    by_contra hge
    push_neg at hge
    have hpow : (256 : Nat) ≤ 2 ^ k := by
      calc (256 : Nat) = 2 ^ 8 := by norm_num
      _ ≤ 2 ^ k := Nat.pow_le_pow_right (by norm_num) hge
    have h1 : i.testBit k = false := Nat.testBit_eq_false_of_lt (by omega)
    have h2 : (i + 1).testBit k = false := Nat.testBit_eq_false_of_lt (by omega)
    exact hk (h1.trans h2.symm)
  have hstep := congrArg (fun z => Nat.testBit z (k + 8)) h
  have hd8 : decide (k + 8 ≥ 8) = true := by simp
  simp only [colorPair, Nat.testBit_lor, Nat.testBit_shiftLeft, hd8,
    Bool.true_and, Nat.add_sub_cancel] at hstep
  rw [mod_two_pow_sixteen_testBit a ha (k + 8) (by omega)] at hstep
  simp only [Bool.or_false] at hstep
  exact hk hstep

/-- C8 helper: a freshly stored key is looked up at its new value. -/
theorem dictGet_dictSet_self {α : Type} :
    ∀ (l : List (String × α)) (k : String) (v : α),
      dictGet (dictSet l k v) k = some v
  | [], k, v => by simp [dictSet, dictGet]
  | (k0, v0) :: rest, k, v => by
    by_cases hk : k0 = k
    · simp [dictSet, dictGet, hk]
    · simp [dictSet, dictGet, hk, dictGet_dictSet_self rest k v]

/-- C8 counterexample: registering the same color triple twice through merge
yields two distinct handles (256 and then 512), while the claim states the
same triple always yields the same handle once registered. -/
theorem stylist_same_triple_distinct_handles :
    dictGet (c8stylist.merge c8conf).1 "body" = some (StyleVal.handle 256) ∧
    dictGet ((c8stylist.merge c8conf).2.merge c8conf).1 "body" =
      some (StyleVal.handle 512) ∧
    (256 : Nat) ≠ 512 :=
  ⟨by decide, by decide, by decide⟩

/-- C8 amended: each registration of a triple consumes a fresh color-pair
slot, so registering an identical triple again yields a distinct handle;
only reuse of the stored table entry (and the pure token translation)
yields equal results.  Stated for any stylist state with a pair index in
the curses range. -/
theorem stylist_repeat_registration_fresh (s : Stylist) (k : String)
    (ts : List String) (hi : s.index + 1 < 256) :
    dictGet (s.merge [(k, StyleConf.tokens ts)]).1 k ≠
      dictGet ((s.merge [(k, StyleConf.tokens ts)]).2.merge
        [(k, StyleConf.tokens ts)]).1 k := by
  unfold Stylist.merge
  simp only [List.foldl_cons, List.foldl_nil]
  rw [dictGet_dictSet_self, dictGet_dictSet_self]
  intro h
  rw [Option.some_inj, StyleVal.handle.injEq] at h
  exact colorPair_or_attr_ne s.index (Stylist.translate ts).2 hi
    (translate_attr_mod ts) h

/-- Witness for C8 amended at a concrete stylist and triple. -/
theorem stylist_repeat_registration_fresh_witness :
    c8wstylist.index + 1 < 256 ∧
      dictGet (c8wstylist.merge [("title", StyleConf.tokens ["GREEN", "BLUE", "BOLD"])]).1
          "title" ≠
        dictGet ((c8wstylist.merge
            [("title", StyleConf.tokens ["GREEN", "BLUE", "BOLD"])]).2.merge
          [("title", StyleConf.tokens ["GREEN", "BLUE", "BOLD"])]).1 "title" :=
  ⟨by decide, stylist_repeat_registration_fresh c8wstylist "title"
    ["GREEN", "BLUE", "BOLD"] (by decide)⟩

/-- C4 helper: every candidate collected by the column scan of one row comes
from an accepted inquire call at a scanned column, with the border offset
added to its coordinates. -/
theorem searchCols_sound (g : Grid) (slab : Tile) (row off : Nat) :
    ∀ (cols : List Nat) (q : Pos), q ∈ Grid.searchCols g slab row off cols →
      ∃ c ∈ cols, g.inquire row c slab = some q.loss ∧
        q.ypos = row + off ∧ q.xpos = c + off := by
  intro cols
  induction cols with
  | nil => intro q hq; simp [Grid.searchCols] at hq
  | cons col rest ih =>
    intro q hq
    cases hinq : g.inquire row col slab with
    | none =>
      rw [Grid.searchCols, hinq] at hq
      dsimp only at hq
      obtain ⟨c, hc, hrest⟩ := ih q hq
      exact ⟨c, by simp [hc], hrest⟩
    | some loss =>
      rw [Grid.searchCols, hinq] at hq
      dsimp only at hq
      by_cases hz : loss = 0
      · rw [if_pos hz] at hq
        simp only [List.mem_singleton] at hq
        subst hq
        exact ⟨col, by simp, hinq, rfl, rfl⟩
      · rw [if_neg hz] at hq
        rcases List.mem_cons.mp hq with hq | hq
        · subst hq
          exact ⟨col, by simp, hinq, rfl, rfl⟩
        · obtain ⟨c, hc, hrest⟩ := ih q hq
          exact ⟨c, by simp [hc], hrest⟩

/-- C4 helper: every candidate collected by the row scan is either carried in
from the accumulator or produced by the column scan of a scanned row. -/
theorem searchRowsGo_sound (g : Grid) (slab : Tile) (off : Nat) :
    ∀ (rows : List Nat) (acc : List Pos) (q : Pos),
      q ∈ Grid.searchRowsGo g slab off acc rows →
      q ∈ acc ∨ ∃ row ∈ rows, q ∈ Grid.searchCols g slab row off (List.range g.width) := by
  intro rows
  induction rows with
  | nil => intro acc q hq; rw [Grid.searchRowsGo] at hq; exact Or.inl hq
  | cons row rest ih =>
    intro acc q hq
    rw [Grid.searchRowsGo] at hq
    have hsplit :
        q ∈ acc ++ Grid.searchCols g slab row off (List.range g.width) ∨
          ∃ r ∈ rest, q ∈ Grid.searchCols g slab r off (List.range g.width) := by
      cases hlast : (acc ++ Grid.searchCols g slab row off (List.range g.width)).getLast? with
      | some p =>
        rw [hlast] at hq
        dsimp only at hq
        by_cases hz : p.loss = 0
        · rw [if_pos hz] at hq; exact Or.inl hq
        · rw [if_neg hz] at hq
          rcases ih _ q hq with h | h
          · exact Or.inl h
          · exact Or.inr h
      | none =>
        rw [hlast] at hq
        dsimp only at hq
        rcases ih _ q hq with h | h
        · exact Or.inl h
        · exact Or.inr h
    rcases hsplit with h | h
    · rcases List.mem_append.mp h with h | h
      · exact Or.inl h
      · exact Or.inr ⟨row, by simp, h⟩
    · obtain ⟨r, hr, hmem⟩ := h
      exact Or.inr ⟨r, by simp [hr], hmem⟩

/-- C4 helper: every collected candidate is an accepted inquire result at a
scanned position, offset by the border inset. -/
theorem candidates_sound (g : Grid) (slab : Tile) (q : Pos)
    (h : q ∈ Grid.candidates g slab) :
    ∃ r, r < g.height ∧ ∃ c, c < g.width ∧ g.inquire r c slab = some q.loss ∧
      q.ypos = r + (if g.has_border then 1 else 0) ∧
      q.xpos = c + (if g.has_border then 1 else 0) := by
  rcases searchRowsGo_sound g slab _ (List.range g.height) [] q h with h | h
  · simp at h
  · obtain ⟨row, hrow, hmem⟩ := h
    obtain ⟨c, hc, hrest⟩ := searchCols_sound g slab row _ (List.range g.width) q hmem
    exact ⟨row, List.mem_range.mp hrow, c, List.mem_range.mp hc, hrest⟩

/-- C4 helper: the column scan collects something whenever some scanned
column is accepted. -/
theorem searchCols_ne_nil (g : Grid) (slab : Tile) (row off : Nat) :
    ∀ (cols : List Nat) (c : Nat), c ∈ cols →
      ∀ l, g.inquire row c slab = some l →
        Grid.searchCols g slab row off cols ≠ [] := by
  intro cols
  induction cols with
  | nil => intro c hc; simp at hc
  | cons col rest ih =>
    intro c hc l hl
    cases hinq : g.inquire row col slab with
    | none =>
      rcases List.mem_cons.mp hc with hceq | hcr
      · subst hceq; rw [hinq] at hl; cases hl
      · rw [Grid.searchCols, hinq]
        dsimp only
        exact ih c hcr l hl
    | some loss =>
      rw [Grid.searchCols, hinq]
      dsimp only
      by_cases hz : loss = 0
      · rw [if_pos hz]; simp
      · rw [if_neg hz]; simp

/-- C4 helper: an empty row-scan result means the accumulator was empty and
every scanned row collected nothing. -/
theorem searchRowsGo_nil (g : Grid) (slab : Tile) (off : Nat) :
    ∀ (rows : List Nat) (acc : List Pos),
      Grid.searchRowsGo g slab off acc rows = [] →
      acc = [] ∧ ∀ row ∈ rows,
        Grid.searchCols g slab row off (List.range g.width) = [] := by
  intro rows
  induction rows with
  | nil =>
    intro acc h
    rw [Grid.searchRowsGo] at h
    exact ⟨h, by simp⟩
  | cons row rest ih =>
    intro acc h
    rw [Grid.searchRowsGo] at h
    cases hlast : (acc ++ Grid.searchCols g slab row off (List.range g.width)).getLast? with
    | some p =>
      rw [hlast] at h
      dsimp only at h
      by_cases hz : p.loss = 0
      · rw [if_pos hz] at h
        rw [h] at hlast
        simp at hlast
      · rw [if_neg hz] at h
        obtain ⟨hnil, _⟩ := ih _ h
        rw [hnil] at hlast
        simp at hlast
    | none =>
      rw [hlast] at h
      dsimp only at h
      obtain ⟨hnil, hrest⟩ := ih _ h
      have hpair := List.append_eq_nil.mp hnil
      refine ⟨hpair.1, ?_⟩
      intro r hr
      rcases List.mem_cons.mp hr with hreq | hrr
      · rw [hreq]; exact hpair.2
      · exact hrest r hrr

/-- C4 helper: the column scan collects nothing when every scanned column is
rejected. -/
theorem searchCols_all_none (g : Grid) (slab : Tile) (row off : Nat) :
    ∀ (cols : List Nat), (∀ c ∈ cols, g.inquire row c slab = none) →
      Grid.searchCols g slab row off cols = [] := by
  intro cols
  induction cols with
  | nil => intro _; rfl
  | cons col rest ih =>
    intro hall
    rw [Grid.searchCols, hall col (by simp)]
    dsimp only
    exact ih (fun c hc => hall c (by simp [hc]))

/-- C4 helper: the row scan collects nothing when the accumulator is empty
and every scanned row collects nothing. -/
theorem searchRowsGo_all_nil (g : Grid) (slab : Tile) (off : Nat) :
    ∀ (rows : List Nat),
      (∀ row ∈ rows, Grid.searchCols g slab row off (List.range g.width) = []) →
      Grid.searchRowsGo g slab off [] rows = [] := by
  intro rows
  induction rows with
  | nil => intro _; rfl
  | cons row rest ih =>
    intro hall
    rw [Grid.searchRowsGo]
    rw [hall row (by simp)]
    simp only [List.append_nil, List.getLast?_nil]
    exact ih (fun r hr => hall r (by simp [hr]))

/-- C4 amended: search scans candidates row-major with the border inset and
stops scanning the moment a zero-loss candidate is collected, but what it
returns is the minimum-loss candidate among all candidates collected up to
that point (which can be an earlier negative-loss one), ties broken in
favor of the first in scan order; it returns none exactly when every
scanned position is rejected. -/
theorem grid_search_characterization (g : Grid) (slab : Tile) :
    (Grid.search g slab = none ↔
      ∀ r, r < g.height → ∀ c, c < g.width → g.inquire r c slab = none)
    ∧ (∀ p, Grid.search g slab = some p →
        p ∈ Grid.candidates g slab
        ∧ g.inquire (p.ypos - (if g.has_border then 1 else 0))
            (p.xpos - (if g.has_border then 1 else 0)) slab = some p.loss
        ∧ (∀ q ∈ Grid.candidates g slab, p.loss ≤ q.loss)
        ∧ (∀ q ∈ Grid.candidates g slab, q.loss ≤ p.loss →
            (Grid.candidates g slab).indexOf p ≤ (Grid.candidates g slab).indexOf q)) := by
  constructor
  · constructor
    · intro hnone r hr c hc
      have hnil : Grid.candidates g slab = [] :=
        List.argmin_eq_none.mp hnone
      obtain ⟨_, hall⟩ := searchRowsGo_nil g slab _ (List.range g.height) [] hnil
      cases hinq : g.inquire r c slab with
      | none => rfl
      | some l =>
        have hne := searchCols_ne_nil g slab r (if g.has_border then 1 else 0)
          (List.range g.width) c (List.mem_range.mpr hc) l hinq
        exact absurd (hall r (List.mem_range.mpr hr)) hne
    · intro hall
      have hnil : Grid.candidates g slab = [] := by
        apply searchRowsGo_all_nil
        intro row hrow
        apply searchCols_all_none
        intro c hc
        exact hall row (List.mem_range.mp hrow) c (List.mem_range.mp hc)
      unfold Grid.search
      rw [hnil]
      exact List.argmin_nil _
  · intro p hp
    have hmemArg : p ∈ (Grid.candidates g slab).argmin Pos.loss :=
      Option.mem_def.mpr hp
    have hmem : p ∈ Grid.candidates g slab := List.argmin_mem hmemArg
    refine ⟨hmem, ?_, ?_, ?_⟩
    · obtain ⟨r, _, c, _, hinq, hy, hx⟩ := candidates_sound g slab p hmem
      rw [hy, hx]
      simpa using hinq
    · intro q hq
      exact List.le_of_mem_argmin hq hmemArg
    · intro q hq hle
      exact List.index_of_argmin hmemArg hq hle

/-- C4 counterexample: on an empty one-row, four-column grid with a
one-by-two slab, the scan reaches and collects the zero-loss candidate at
column two (and stops there), yet search returns the earlier origin
candidate with loss minus two, not the first zero-loss candidate that the
claim promises. -/
theorem grid_search_not_first_zero_loss :
    Grid.inquire c4grid 0 2 c4tile = some 0 ∧
    Grid.candidates c4grid c4tile =
      [{ ypos := 0, xpos := 0, loss := -2 }, { ypos := 0, xpos := 1, loss := -1 },
        { ypos := 0, xpos := 2, loss := 0 }] ∧
    Grid.search c4grid c4tile = some c4pos ∧ c4pos.loss ≠ 0 :=
  ⟨by decide, by decide, by decide, by decide⟩

/-- Witness for C4 amended applied at the concrete one-row grid. -/
theorem grid_search_characterization_witness :
    Grid.search c4grid c4tile = some c4pos ∧
      (c4pos ∈ Grid.candidates c4grid c4tile
        ∧ Grid.inquire c4grid (c4pos.ypos - (if c4grid.has_border then 1 else 0))
            (c4pos.xpos - (if c4grid.has_border then 1 else 0)) c4tile = some c4pos.loss
        ∧ (∀ q ∈ Grid.candidates c4grid c4tile, c4pos.loss ≤ q.loss)
        ∧ (∀ q ∈ Grid.candidates c4grid c4tile, q.loss ≤ c4pos.loss →
            (Grid.candidates c4grid c4tile).indexOf c4pos ≤
              (Grid.candidates c4grid c4tile).indexOf q)) :=
  ⟨by decide, (grid_search_characterization c4grid c4tile).2 c4pos (by decide)⟩

/-- C3 helper: bind of a successful Except computation. -/
theorem except_bind_ok {ε α β : Type} (a : α) (f : α → Except ε β) :
    (Except.ok a >>= f) = f a := rfl

/-- C3 helper: bind of a failed Except computation. -/
theorem except_bind_error {ε α β : Type} (e : ε) (f : α → Except ε β) :
    ((Except.error e : Except ε α) >>= f) = Except.error e := rfl

/-- C3 helper: reading back the freshly set element of a list. -/
theorem getD_set_self {α : Type} (l : List α) (i : Nat) (a d : α)
    (h : i < l.length) : (l.set i a).getD i d = a := by
  rw [List.getD_eq_getElem?_getD, List.getElem?_set]
  simp [h]

/-- C3 helper: reading another position of a list after a set. -/
theorem getD_set_ne {α : Type} (l : List α) (i j : Nat) (a d : α)
    (h : i ≠ j) : (l.set i a).getD j d = l.getD j d := by
  rw [List.getD_eq_getElem?_getD, List.getElem?_set, if_neg h,
    ← List.getD_eq_getElem?_getD]

/-- C3 helper: reserving one cell preserves the matrix dimensions. -/
theorem reserveCell_shape (g g' : Grid) (rc : Nat × Nat)
    (h : Grid.reserveCell g rc = Except.ok g') :
    g'.data.length = g.data.length ∧
      ∀ r, (g'.data.getD r []).length = (g.data.getD r []).length := by
  unfold Grid.reserveCell at h
  dsimp only at h
  split at h
  · split at h
    · cases h
    · cases h
      constructor
      · simp
      · intro r
        by_cases hr : r = rc.1
        · subst hr
          rename_i hin _
          rw [getD_set_self _ _ _ _ hin.1]
          simp
        · rw [getD_set_ne _ _ _ _ _ (fun he => hr he.symm)]
  · cases h
    exact ⟨rfl, fun _ => rfl⟩

/-- C3 helper: reserving one cell never clears occupancy. -/
theorem reserveCell_mono (g g' : Grid) (rc : Nat × Nat)
    (h : Grid.reserveCell g rc = Except.ok g') (r c : Nat) :
    Grid.cellAt g r c ≤ Grid.cellAt g' r c := by
  unfold Grid.reserveCell at h
  dsimp only at h
  split at h
  · split at h
    · cases h
    · cases h
      rename_i hin hocc
      unfold Grid.cellAt
      by_cases hr : r = rc.1
      · subst hr
        rw [getD_set_self _ _ _ _ hin.1]
        by_cases hc : c = rc.2
        · subst hc
          rw [getD_set_self _ _ _ _ hin.2]
          omega
        · rw [getD_set_ne _ _ _ _ _ (fun he => hc he.symm)]
      · rw [getD_set_ne _ _ _ _ _ (fun he => hr he.symm)]
  · cases h
    exact le_refl _

/-- C3 helper: a successful single-cell reservation of an in-bounds cell
found it free and leaves it occupied. -/
theorem reserveCell_ok_zero (g g' : Grid) (rc : Nat × Nat)
    (h : Grid.reserveCell g rc = Except.ok g') (hin : Grid.InBounds g rc) :
    Grid.cellAt g rc.1 rc.2 = 0 ∧ 0 < Grid.cellAt g' rc.1 rc.2 := by
  unfold Grid.reserveCell at h
  dsimp only at h
  unfold Grid.InBounds at hin
  rw [if_pos hin] at h
  split at h
  · cases h
  · cases h
    rename_i hocc
    constructor
    · unfold Grid.cellAt
      omega
    · unfold Grid.cellAt
      rw [getD_set_self _ _ _ _ hin.1, getD_set_self _ _ _ _ hin.2]
      omega

/-- C3 helper: a cell-list reservation preserves the matrix dimensions. -/
theorem reserveCells_shape :
    ∀ (cs : List (Nat × Nat)) (g g' : Grid),
      cs.foldlM Grid.reserveCell g = Except.ok g' →
      g'.data.length = g.data.length ∧
        ∀ r, (g'.data.getD r []).length = (g.data.getD r []).length := by
  intro cs
  induction cs with
  | nil =>
    intro g g' h
    rw [List.foldlM_nil] at h
    cases h
    exact ⟨rfl, fun _ => rfl⟩
  | cons c cs ih =>
    intro g g' h
    rw [List.foldlM_cons] at h
    cases hstep : Grid.reserveCell g c with
    | error e => rw [hstep, except_bind_error] at h; cases h
    | ok g1 =>
      rw [hstep, except_bind_ok] at h
      obtain ⟨hl1, hr1⟩ := reserveCell_shape g g1 c hstep
      obtain ⟨hl2, hr2⟩ := ih g1 g' h
      exact ⟨hl2.trans hl1, fun r => (hr2 r).trans (hr1 r)⟩

/-- C3 helper: a cell-list reservation never clears occupancy. -/
theorem reserveCells_mono :
    ∀ (cs : List (Nat × Nat)) (g g' : Grid),
      cs.foldlM Grid.reserveCell g = Except.ok g' →
      ∀ r c, Grid.cellAt g r c ≤ Grid.cellAt g' r c := by
  intro cs
  induction cs with
  | nil =>
    intro g g' h r c
    rw [List.foldlM_nil] at h
    cases h
    exact le_refl _
  | cons x cs ih =>
    intro g g' h r c
    rw [List.foldlM_cons] at h
    cases hstep : Grid.reserveCell g x with
    | error e => rw [hstep, except_bind_error] at h; cases h
    | ok g1 =>
      rw [hstep, except_bind_ok] at h
      exact (reserveCell_mono g g1 x hstep r c).trans (ih g1 g' h r c)

/-- C3 helper: the bounds predicate only depends on the matrix dimensions. -/
theorem inBounds_of_shape (g g' : Grid)
    (hl : g'.data.length = g.data.length)
    (hr : ∀ r, (g'.data.getD r []).length = (g.data.getD r []).length)
    (rc : Nat × Nat) : Grid.InBounds g rc ↔ Grid.InBounds g' rc := by
  unfold Grid.InBounds
  rw [hl, hr]

/-- C3 helper: every in-bounds cell a successful cell-list reservation walks
was free beforehand. -/
theorem reserveCells_pre :
    ∀ (cs : List (Nat × Nat)) (g g' : Grid),
      cs.foldlM Grid.reserveCell g = Except.ok g' →
      ∀ rc ∈ cs, Grid.InBounds g rc → Grid.cellAt g rc.1 rc.2 = 0 := by
  intro cs
  induction cs with
  | nil => intro g g' _ rc hrc; simp at hrc
  | cons x cs ih =>
    intro g g' h rc hrc hin
    rw [List.foldlM_cons] at h
    cases hstep : Grid.reserveCell g x with
    | error e => rw [hstep, except_bind_error] at h; cases h
    | ok g1 =>
      rw [hstep, except_bind_ok] at h
      rcases List.mem_cons.mp hrc with hx | hxs
      · subst hx
        exact (reserveCell_ok_zero g g1 rc hstep hin).1
      · obtain ⟨hl1, hr1⟩ := reserveCell_shape g g1 x hstep
        have hin1 : Grid.InBounds g1 rc :=
          (inBounds_of_shape g g1 hl1 hr1 rc).mp hin
        have hz1 := ih g1 g' h rc hxs hin1
        have hm := reserveCell_mono g g1 x hstep rc.1 rc.2
        omega

/-- C3 helper: every in-bounds cell a successful cell-list reservation walks
is occupied afterwards. -/
theorem reserveCells_post :
    ∀ (cs : List (Nat × Nat)) (g g' : Grid),
      cs.foldlM Grid.reserveCell g = Except.ok g' →
      ∀ rc ∈ cs, Grid.InBounds g rc → 0 < Grid.cellAt g' rc.1 rc.2 := by
  intro cs
  induction cs with
  | nil => intro g g' _ rc hrc; simp at hrc
  | cons x cs ih =>
    intro g g' h rc hrc hin
    rw [List.foldlM_cons] at h
    cases hstep : Grid.reserveCell g x with
    | error e => rw [hstep, except_bind_error] at h; cases h
    | ok g1 =>
      rw [hstep, except_bind_ok] at h
      rcases List.mem_cons.mp hrc with hx | hxs
      · subst hx
        have h1 := (reserveCell_ok_zero g g1 rc hstep hin).2
        have hm := reserveCells_mono cs g1 g' h rc.1 rc.2
        omega
      · obtain ⟨hl1, hr1⟩ := reserveCell_shape g g1 x hstep
        have hin1 : Grid.InBounds g1 rc :=
          (inBounds_of_shape g g1 hl1 hr1 rc).mp hin
        exact ih g1 g' h rc hxs hin1

/-- C3 helper: a successful reserve keeps the grid rows-by-cols. -/
theorem reserve_shaped (g g' : Grid) (t : Tile) (rows cols : Nat)
    (hs : g.Shaped rows cols) (h : g.reserve t = Except.ok g') :
    g'.Shaped rows cols := by
  obtain ⟨hl, hr⟩ := reserveCells_shape t.cells g g' h
  exact ⟨hl.trans hs.1, fun r hrr => (hr r).trans (hs.2 r hrr)⟩

/-- C3 helper: on a rows-by-cols grid the bounds predicate is the coordinate
bound. -/
theorem shaped_inBounds (g : Grid) (rows cols : Nat) (hs : g.Shaped rows cols)
    (rc : Nat × Nat) (h1 : rc.1 < rows) (h2 : rc.2 < cols) : Grid.InBounds g rc := by
  unfold Grid.InBounds
  refine ⟨?_, ?_⟩
  · rw [hs.1]; exact h1
  · rw [hs.2 rc.1 h1]; exact h2

/-- C3 helper: a freshly built grid is rows-by-cols. -/
theorem init_shaped (rows cols : Nat) (b : Bool) :
    (Grid.init rows cols b).Shaped rows cols := by
  unfold Grid.init Grid.Shaped
  refine ⟨by simp, ?_⟩
  intro r hr
  rw [List.getD_eq_getElem?_getD, List.getElem?_replicate, if_pos hr]
  simp

/-- C3 helper: through one arrange pass every successfully reserved tile
found all in-bounds cells of its footprint free in the starting grid, and
the reserved tiles are pairwise disjoint on the grid cells. -/
theorem arrangeGo_placed_inv (rows cols : Nat) :
    ∀ (slabs : List Tile) (grid : Grid) (scr : Screen),
      grid.Shaped rows cols →
      (arrangeGo grid scr slabs).placed.Pairwise (TileDisj rows cols)
        ∧ ∀ p ∈ (arrangeGo grid scr slabs).placed, ∀ rc ∈ p.cells,
            rc.1 < rows → rc.2 < cols → Grid.cellAt grid rc.1 rc.2 = 0 := by
  intro slabs
  induction slabs with
  | nil =>
    intro grid scr hs
    constructor
    · simp [arrangeGo]
    · intro p hp
      simp [arrangeGo] at hp
  | cons slab rest ih =>
    intro grid scr hs
    simp only [arrangeGo]
    by_cases hv : slab.visible = true
    · rw [if_pos hv]
      cases hsearch : grid.search (slab.toggle scr).1 with
      | none =>
        dsimp only
        exact ih grid (slab.toggle scr).2 hs
      | some loc =>
        dsimp only
        cases hres : grid.reserve
            (((slab.toggle scr).1.position loc.ypos loc.xpos).toggle
              (slab.toggle scr).2).1 with
        | error e =>
          dsimp only
          constructor
          · simp
          · intro p hp
            simp at hp
        | ok grid' =>
          dsimp only
          have hresF : ((((slab.toggle scr).1.position loc.ypos loc.xpos).toggle
              (slab.toggle scr).2).1).cells.foldlM Grid.reserveCell grid =
                Except.ok grid' := hres
          have hs' : grid'.Shaped rows cols :=
            reserve_shaped grid grid' _ rows cols hs hres
          have ihres := ih grid'
            (((slab.toggle scr).1.position loc.ypos loc.xpos).toggle
              (slab.toggle scr).2).2 hs'
          constructor
          · rw [List.pairwise_cons]
            refine ⟨?_, ihres.1⟩
            intro q hq
            intro rc hr1 hr2 hm1 hm2
            have hin : Grid.InBounds grid rc :=
              shaped_inBounds grid rows cols hs rc hr1 hr2
            have hpost := reserveCells_post _ grid grid' hresF rc hm1 hin
            have hzero := ihres.2 q hq rc hm2 hr1 hr2
            omega
          · intro p hp rc hrc hr1 hr2
            rcases List.mem_cons.mp hp with hp | hp
            · subst hp
              have hin : Grid.InBounds grid rc :=
                shaped_inBounds grid rows cols hs rc hr1 hr2
              exact reserveCells_pre _ grid grid' hresF rc hrc hin
            · have hzero := ihres.2 p hp rc hrc hr1 hr2
              have hmono := reserveCells_mono _ grid grid' hresF rc.1 rc.2
              omega
    · rw [if_neg hv]
      dsimp only
      exact ih grid scr hs

/-- C3: one arrange pass, which places each visible tile through Grid.search
and commits it through Grid.reserve on the same grid, never produces two
reserved tiles whose footprints share a grid cell: the successfully placed
tiles are pairwise disjoint on the terminal cells, for every tile sequence
and terminal size. -/
theorem arrange_placed_disjoint (rows cols : Nat) (border : Bool)
    (slabs : List Tile) (scr : Screen) :
    ((engineArrange rows cols border slabs scr).placed).Pairwise
      (TileDisj rows cols) :=
  (arrangeGo_placed_inv rows cols slabs (Grid.init rows cols border) scr
    (init_shaped rows cols border)).1
